import Mathlib

/-!
Shallow embedding of the cr.io laboratory sample tracker's core
(location hierarchy, sample store, audit history, bulk reconciliation),
translated from src/sample.py, src/sample_history.py, src/box.py,
src/freezer.py, src/data_validation.py and src/model.py.

Conventions:
* The SQLite store reached through db_utils.get_db_session is modelled as an
  explicit Store record; each operation is a pure function on Store.
* Python strings are Lean Strings; autoincrement ids are Nats handed out from
  Store.nextId; DateTime timestamps are Nats handed out from Store.nextTime
  (datetime.utcnow is monotone for our purposes, and only its ordering is ever
  used, via ORDER BY timestamp DESC).
* sample_history appends run in their own session AFTER the sample mutation's
  session.commit() (sample.py lines 244/273 and 463 commit before the
  log_* calls at 247/276/466, and log_sample_action opens a fresh session at
  sample_history.py line 47).  Operations are therefore split into a phase-1
  function (validate + mutate + commit) and the audit appends applied
  afterwards; the full operation is their composition.
* The sample_history.sample_id column declares ON DELETE CASCADE, but the
  engine is SQLite with no PRAGMA foreign_keys anywhere in the repository and
  the ORM maps no relationship from Sample to SampleHistory, so deleting a
  sample row leaves history rows in place; the embedding reflects that
  runtime behaviour.
* model.py's Sample class does NOT declare the date_created/strain/ogtr/daff
  attributes that sample.py reads and writes (it declares regulation and
  date_added instead).  The embedding keeps model.py's column set, and
  models faithfully what sample.py then does at runtime: the update branch
  of save_sample raises AttributeError at the sample.date_created comparison
  (line 219), the create branch raises TypeError in the declarative
  constructor call Sample(..., date_created=..., ...) (lines 253-271), and
  in the bulk loop the update arm raises AttributeError at
  getattr(existing_sample, "date_created") (line 427) and the create arm
  raises TypeError (lines 440-458) — in every case after validation but
  before the session.commit() of the branch and before any log_* call, with
  the exception caught and displayed (sample.py lines 281-284 and 471-474).
  Only the bulk loop's deletion arm (blank sample_name, lines 412-416)
  and the skip of rows of other boxes run to completion.  When the bulk loop
  dies mid-way, its pending session.delete calls are still committed: the
  exception is swallowed inside process_uploaded_csv, so the enclosing
  `with get_db_session()` of display_sample_management exits normally and
  commits (db_utils.py lines 27-38).
-/

/-! ### data_validation.sanitize_input (src/data_validation.py lines 240-262) -/

/-- Python str.strip default whitespace set (ASCII part). -/
def pyIsSpace (c : Char) : Bool :=
  c = ' ' || c = '\t' || c = '\n' || c = '\r' || c = '\x0b' || c = '\x0c'

/-- Python s.strip(): drop whitespace from both ends. -/
def pyStrip (s : String) : String :=
  String.mk (((s.toList.dropWhile pyIsSpace).reverse.dropWhile pyIsSpace).reverse)

/-- Scanner for re.sub of the pattern matching an angle-bracket pair with no
closing bracket between (HTML tag removal).  The second argument is `none`
when scanning outside a candidate match and `some pend` (reversed pending
characters) after an opening bracket whose closing bracket has not yet been
seen; if the input ends while pending, no match existed there, so the opening
bracket and the pending characters are kept verbatim, exactly as re.sub
leaves text without a match untouched. -/
def removeTagsAux : List Char → Option (List Char) → List Char
  | [], none => []
  | [], some pend => '<' :: pend.reverse
  | c :: cs, none =>
    if c = '<' then removeTagsAux cs (some [])
    else c :: removeTagsAux cs none
  | c :: cs, some pend =>
    if c = '>' then removeTagsAux cs none
    else removeTagsAux cs (some (c :: pend))

def removeTags (l : List Char) : List Char := removeTagsAux l none

/-- re.sub removing single quotes, double quotes and semicolons. -/
def removeSqlChars (l : List Char) : List Char :=
  l.filter (fun c => !(c = '\'' || c = '"' || c = ';'))

/-- data_validation.sanitize_input on a string input: strip HTML tags, strip
quote/semicolon characters, then strip surrounding whitespace. -/
def sanitize_input (s : String) : String :=
  pyStrip (String.mk (removeSqlChars (removeTags s.toList)))

/-! ### Coordinate labels -/

/-- The grid label expression f-string of chr(65+r) followed by c+1, used at
src/box.py line 62, src/sample.py lines 63 and 344.  Python's chr raises
ValueError only above the maximal Unicode code point; inside the range it
returns the code point unconditionally (chr(65+26) is the literal character
after Z, not an error).  (Lean's Char.ofNat differs from Python chr only on
the surrogate range 0xD800-0xDFFF, far above every grid bound in the code,
where rows are capped at 20.) -/
def coordinateFor (r c : Nat) : Except String String :=
  if 65 + r < 1114112 then
    Except.ok (String.mk [Char.ofNat (65 + r)] ++ Nat.repr (c + 1))
  else
    Except.error "ValueError"

/-- Specification-side row letter: the r-th letter of the alphabet. -/
def rowLetter (r : Nat) : Char :=
  "ABCDEFGHIJKLMNOPQRSTUVWXYZ".toList.getD r '?'

/-! ### Data model (src/model.py, src/sample_history.py) -/

structure RackRec where
  id : String
  freezer_name : String
  rows : Nat
  columns : Nat
deriving DecidableEq

structure BoxRec where
  id : String
  rack_id : String
  freezer_name : String
  box_name : String
  assigned_user : String
  rows : Nat
  columns : Nat
deriving DecidableEq

/-- The columns src/model.py's Sample actually declares (lines 40-72):
note regulation and date_added, and NO date_created/strain/ogtr/daff. -/
structure Sample where
  id : Nat
  sample_name : String
  sample_type : String
  well : String
  owner : String
  date_added : Nat
  notes : String
  species : String
  resistance : String
  regulation : String
  freezer : String
  rack : String
  box : String
  box_id : String
  rack_id : String
  freezer_name : String
deriving DecidableEq

structure HistoryEntry where
  sample_id : Nat
  action : String
  field : Option String
  old_value : Option String
  new_value : Option String
  user_id : Nat
  username : String
  timestamp : Nat
  freezer : String
  rack : String
  box : String
  well : String
  sample_name : String
deriving DecidableEq

structure Store where
  freezers : List String
  racks : List RackRec
  boxes : List BoxRec
  samples : List Sample
  history : List HistoryEntry
  nextId : Nat
  nextTime : Nat
deriving DecidableEq

/-- The denormalized location tuple the sample queries filter on. -/
def sLoc (s : Sample) : String × String × String × String :=
  (s.freezer, s.rack, s.box, s.well)

/-- At most one live sample per (freezer, rack, box, well). -/
def UniqueWells (l : List Sample) : Prop :=
  l.Pairwise (fun a b => sLoc a ≠ sLoc b)

/-! ### Audit history (src/sample_history.py) -/

/-- A sample mutation recorded by the phase-1 code, to be written to the
history table by the log_sample_* calls that run after the commit. -/
inductive PendingLog where
  | cre (s : Sample)
  | upd (s : Sample) (field old new : String)
  | del (s : Sample)
deriving DecidableEq

/-- sample_history.log_sample_action: build the SampleHistory row for one
action, snapshotting the sample's current location and name. -/
def mkEntry (actor : Nat × String) (time : Nat) : PendingLog → HistoryEntry
  | .cre s =>
    { sample_id := s.id, action := "created", field := none,
      old_value := none, new_value := none,
      user_id := actor.1, username := actor.2, timestamp := time,
      freezer := s.freezer, rack := s.rack, box := s.box, well := s.well,
      sample_name := s.sample_name }
  | .upd s f o n =>
    { sample_id := s.id, action := "updated", field := some f,
      old_value := some o, new_value := some n,
      user_id := actor.1, username := actor.2, timestamp := time,
      freezer := s.freezer, rack := s.rack, box := s.box, well := s.well,
      sample_name := s.sample_name }
  | .del s =>
    { sample_id := s.id, action := "deleted", field := none,
      old_value := none, new_value := none,
      user_id := actor.1, username := actor.2, timestamp := time,
      freezer := s.freezer, rack := s.rack, box := s.box, well := s.well,
      sample_name := s.sample_name }

/-- One log_sample_action call: insert the row and commit. -/
def appendLog (actor : Nat × String) (st : Store) (pl : PendingLog) : Store :=
  { st with history := st.history ++ [mkEntry actor st.nextTime pl],
            nextTime := st.nextTime + 1 }

/-- A sequence of log_sample_action calls. -/
def appendLogs (actor : Nat × String) (st : Store) (ls : List PendingLog) : Store :=
  ls.foldl (appendLog actor) st

/-- The history rows a sequence of log calls produces, with consecutive
timestamps starting at t. -/
def entriesFrom (actor : Nat × String) (t : Nat) : List PendingLog → List HistoryEntry
  | [] => []
  | l :: ls => mkEntry actor t l :: entriesFrom actor (t + 1) ls

/-- Newest-first comparison used by ORDER BY timestamp DESC. -/
def histLE (a b : HistoryEntry) : Prop := b.timestamp ≤ a.timestamp

instance : DecidableRel histLE := fun a b => Nat.decLe b.timestamp a.timestamp

instance : IsTotal HistoryEntry histLE :=
  ⟨fun a b => Nat.le_total b.timestamp a.timestamp⟩

instance : IsTrans HistoryEntry histLE :=
  ⟨fun _ _ _ hab hbc => le_trans hbc hab⟩

/-- sample_history.display_sample_audit_trail's query (lines 264-268): all
history rows with this sample_id, ordered newest first. -/
def historyFor (st : Store) (sid : Nat) : List HistoryEntry :=
  List.insertionSort histLE (st.history.filter (fun e => decide (e.sample_id = sid)))

/-! ### Validation (src/data_validation.py) -/

def allowedTypes : List String := ["Cell Line", "DNA", "RNA", "Protein", "Other"]

/-- data_validation.validate_well_format: one uppercase letter then 1-2
digits. -/
def validate_well_format (w : String) : Bool :=
  match w.toList with
  | [] => false
  | c :: rest =>
    ('A' ≤ c && c ≤ 'Z') && (decide (1 ≤ rest.length) && decide (rest.length ≤ 2))
      && rest.all (fun d => '0' ≤ d && d ≤ '9')

/-- int(w[1:]) for a digit string. -/
def digitsToNat (ds : List Char) : Nat :=
  ds.foldl (fun a d => a * 10 + (d.toNat - 48)) 0

/-- ord(w[0]) - ord('A'). -/
def wellRow (w : String) : Nat := (w.toList.headD 'A').toNat - 65

def wellCol (w : String) : Nat := digitsToNat w.toList.tail

/-- data_validation.validate_well_in_box: row index within [0, rows), column
number within [1, cols]. -/
def validate_well_in_box (w : String) (rows cols : Nat) : Bool :=
  decide (wellRow w < rows) && (decide (1 ≤ wellCol w) && decide (wellCol w ≤ cols))

def findBox (st : Store) (f rk b : String) : Option BoxRec :=
  st.boxes.find? (fun bx =>
    decide (bx.freezer_name = f) && decide (bx.rack_id = rk) && decide (bx.id = b))

/-- data_validation.validate_unique_sample's query: first sample at the
location, excluding (for updates) the sample being edited. -/
def findSampleAt (st : Store) (f rk b w : String) (excl : Option Nat) : Option Sample :=
  st.samples.find? (fun s =>
    decide (s.freezer = f) && decide (s.rack = rk) && decide (s.box = b)
      && decide (s.well = w)
      && (match excl with
          | some i => decide (s.id ≠ i)
          | none => true))

/-- data_validation.validate_sample_form: box lookup, well format, well
bounds, name, type, then uniqueness, failing fast with ValidationError. -/
def validate_sample_form (st : Store) (f rk b w name ty : String)
    (excl : Option Nat) : Except String Unit :=
  match findBox st f rk b with
  | none => Except.error "box not found"
  | some bx =>
    if !validate_well_format w then Except.error "well format invalid"
    else if !validate_well_in_box w bx.rows bx.columns then
      Except.error "well outside box dimensions"
    else if name = "" then Except.error "sample name empty"
    else if decide (100 < name.length) then Except.error "sample name too long"
    else if ty = "" then Except.error "sample type empty"
    else if !(allowedTypes.contains ty) then Except.error "sample type not allowed"
    else
      match findSampleAt st f rk b w excl with
      | some _ => Except.error "a sample already exists at this location"
      | none => Except.ok ()

/-! ### sample.save_sample (src/sample.py lines 168-284) -/

/-- The eleven form inputs of save_sample (besides session/sample/box). -/
structure SampleInput where
  sample_name : String
  sample_type : String
  well : String
  owner : String
  notes : String
  species : String
  resistance : String
  date_created : String
  strain : String
  ogtr : String
  daff : String
deriving DecidableEq

/-- Lines 172-181: sanitize every input except sample_type (which comes from
a fixed selectbox and is not passed through sanitize_input). -/
def sanitizeInp (i : SampleInput) : SampleInput :=
  { sample_name := sanitize_input i.sample_name,
    sample_type := i.sample_type,
    well := sanitize_input i.well,
    owner := sanitize_input i.owner,
    notes := sanitize_input i.notes,
    species := sanitize_input i.species,
    resistance := sanitize_input i.resistance,
    date_created := sanitize_input i.date_created,
    strain := sanitize_input i.strain,
    ogtr := sanitize_input i.ogtr,
    daff := sanitize_input i.daff }

/-- save_sample (sample.py lines 168-284) as it actually executes against
model.py's Sample: sanitize the inputs (172-181), validate (184-192, which
touches only existing columns and the df-free checks), then
* update branch: the change-tracking chain compares sample.sample_name,
  sample_type, well, owner, notes, species, resistance successfully and then
  evaluates sample.date_created (line 219), which model.py's Sample does not
  have -> AttributeError, caught at line 283; nothing was assigned, nothing
  committed, nothing logged;
* create branch: Sample(..., date_created=..., strain=..., ogtr=...,
  daff=...) (lines 253-271) raises TypeError in SQLAlchemy's declarative
  constructor (unknown keyword), before session.add; caught at line 283.
So the function always leaves the store untouched and always reports an
error; the pair returned is (unchanged store, displayed error). -/
def save_sample (st : Store) (selBox : BoxRec) (existing : Option Sample)
    (inp : SampleInput) : Store × Option String :=
  let i := sanitizeInp inp
  match validate_sample_form st selBox.freezer_name selBox.rack_id selBox.id
      i.well i.sample_name i.sample_type (existing.map Sample.id) with
  | Except.error e => (st, some ("Validation error: " ++ e))
  | Except.ok _ =>
    match existing with
    | some _ => (st, some "Error saving sample: AttributeError: date_created")
    | none => (st, some "Error saving sample: TypeError: date_created is an invalid keyword argument for Sample")

/-- sample.handle_sample_deletion confirmed branch (lines 302-308):
log_sample_deletion first, then delete the row and commit. -/
def deleteSampleOp (st : Store) (actor : Nat × String) (s : Sample) : Store :=
  let st1 := appendLog actor st (PendingLog.del s)
  { st1 with samples := st1.samples.filter (fun t => decide (t.id ≠ s.id)) }

/-! ### box.save_box update branch (src/box.py lines 112-136) -/

/-- Updating an existing box: rename/resize it, and when the slot changes,
re-key the contained samples' denormalized box column with the raw UPDATE of
line 122 (which touches only samples.box, matching on box/rack/freezer), then
change the box row's id.  No history is written anywhere in this path. -/
def save_box_update (st : Store) (rk : RackRec) (oldBox : BoxRec)
    (name user : String) (rows cols : Nat) (pos : String) : Store :=
  let b1 : BoxRec :=
    { oldBox with box_name := pyStrip name, assigned_user := pyStrip user,
                  rows := rows, columns := cols }
  if pos ≠ oldBox.id then
    { st with
      samples := st.samples.map (fun s =>
        if s.box = oldBox.id ∧ s.rack = rk.id ∧ s.freezer = rk.freezer_name then
          { s with box := pos }
        else s),
      boxes := st.boxes.map (fun b =>
        if b.id = oldBox.id ∧ b.rack_id = oldBox.rack_id ∧
            b.freezer_name = oldBox.freezer_name then
          { b1 with id := pos }
        else b) }
  else
    { st with
      boxes := st.boxes.map (fun b =>
        if b.id = oldBox.id ∧ b.rack_id = oldBox.rack_id ∧
            b.freezer_name = oldBox.freezer_name then b1
        else b) }

/-! ### freezer.handle_freezer_deletion (src/freezer.py lines 43-61) -/

/-- delete_freezer simply issues session.delete on the Freezer row and
commits; the ORM cascades along the relationship annotations of model.py
(Freezer.racks by freezer_name, Rack.boxes by rack_id, Box.samples by the
(box_id, rack_id, freezer_name) foreign key).  No log_* function is called
anywhere on this path, so the history is untouched. -/
def delete_freezer (st : Store) (name : String) : Store :=
  if st.freezers.contains name then
    let delRacks := st.racks.filter (fun r => decide (r.freezer_name = name))
    let delBoxes := st.boxes.filter (fun b => delRacks.any (fun r => decide (r.id = b.rack_id)))
    { st with
      freezers := st.freezers.filter (fun n => decide (n ≠ name)),
      racks := st.racks.filter (fun r => decide (r.freezer_name ≠ name)),
      boxes := st.boxes.filter (fun b => !(delRacks.any (fun r => decide (r.id = b.rack_id)))),
      samples := st.samples.filter (fun s =>
        !(delBoxes.any (fun b =>
          decide (b.id = s.box_id) && decide (b.rack_id = s.rack_id)
            && decide (b.freezer_name = s.freezer_name)))) }
  else st

/-! ### Bulk upload (src/sample.py lines 317-474, src/data_validation.py
lines 172-238) -/

/-- One row of the uploaded CSV, with the fixed column set of the template
(line 353).  Cells are strings; an empty cell is the empty string. -/
structure CsvRow where
  freezer : String
  rack : String
  box : String
  well : String
  sample_name : String
  sample_type : String
  owner : String
  notes : String
  species : String
  resistance : String
  date_created : String
  strain : String
  ogtr : String
  daff : String
deriving DecidableEq

/-- pd.isna(name) or str(name).strip() == "" for string cells. -/
def blankName (r : CsvRow) : Bool := pyStrip r.sample_name = ""

/-- Lines 418-421: sanitize the ten data columns of the row in place; the
well/freezer/rack/box cells are left exactly as uploaded. -/
def sanitizeRow (r : CsvRow) : CsvRow :=
  { r with sample_name := sanitize_input r.sample_name,
           sample_type := sanitize_input r.sample_type,
           owner := sanitize_input r.owner,
           notes := sanitize_input r.notes,
           species := sanitize_input r.species,
           resistance := sanitize_input r.resistance,
           date_created := sanitize_input r.date_created,
           strain := sanitize_input r.strain,
           ogtr := sanitize_input r.ogtr,
           daff := sanitize_input r.daff }

/-- data_validation.validate_csv_upload: box must exist; every row with a
non-blank name must have a well-formed, in-bounds well, a legal name and
type; and no well value may occur twice in the file.  True iff the error
list comes back empty.  (The required-column check always passes here since
the row type carries the full column set.) -/
def validate_csv_upload (st : Store) (df : List CsvRow) (f rk b : String) : Bool :=
  match findBox st f rk b with
  | none => false
  | some bx =>
    df.all (fun row =>
      blankName row ||
        (validate_well_format row.well
          && validate_well_in_box row.well bx.rows bx.columns
          && !(decide (row.sample_name = ""))
          && !(decide (100 < row.sample_name.length))
          && !(decide (row.sample_type = ""))
          && allowedTypes.contains row.sample_type))
    && decide (df.map CsvRow.well).Nodup

/-- Accumulator of process_uploaded_csv's loop: the session state plus the
added_samples / updated_samples / deleted_samples lists (lines 398-400). -/
structure CsvAcc where
  store : Store
  adds : List Sample
  upds : List (Sample × String × String × String)
  dels : List Sample
deriving DecidableEq

/-- The loop body (sample.py lines 403-460) for one row, as it actually
executes: rows of other boxes are skipped; the sample at the row's well is
looked up; a blank sample_name deletes it if present (lines 412-416, the one
arm that completes); a non-blank row is sanitized (419-421, unobservable)
and then dies before touching the session — the update arm at
getattr(existing_sample, "date_created") (line 427, AttributeError), the
create arm in the Sample(...) constructor (line 440, TypeError). -/
def csvRowStep (f rk b : String) (acc : CsvAcc) (row : CsvRow) :
    Except String CsvAcc :=
  if row.freezer = f ∧ row.rack = rk ∧ row.box = b then
    let ex? := acc.store.samples.find? (fun s =>
      decide (s.freezer = row.freezer) && decide (s.rack = row.rack)
        && decide (s.box = row.box) && decide (s.well = row.well))
    if blankName row then
      match ex? with
      | some ex =>
        Except.ok { acc with
          store := { acc.store with
            samples := acc.store.samples.filter (fun t => decide (t.id ≠ ex.id)) },
          dels := acc.dels ++ [ex] }
      | none => Except.ok acc
    else
      match ex? with
      | some _ => Except.error "AttributeError: date_created"
      | none => Except.error "TypeError: date_created is an invalid keyword argument for Sample"
  else Except.ok acc

/-- The row loop: runs each row in order and stops at the first exception,
returning the accumulator as it stood then (its pending deletions are later
committed by the enclosing session context manager, see the header note). -/
def csvLoop (f rk b : String) : List CsvRow → CsvAcc → CsvAcc × Option String
  | [], acc => (acc, none)
  | row :: rest, acc =>
    match csvRowStep f rk b acc row with
    | Except.ok acc' => csvLoop f rk b rest acc'
    | Except.error e => (acc, some e)

structure CsvCounts where
  added : Nat
  updated : Nat
  deleted : Nat
deriving DecidableEq

/-- process_uploaded_csv up to and including its session.commit() (line
463), for the runs that reach it (validation passed and every in-box row
was blank): the committed store, the pending log calls of
log_bulk_sample_changes (creations, then updates, then deletions, as in
sample_history.py lines 77-93; only deletions can be non-empty), and the
counts the summary of line 469 reports.  none when validation failed or the
loop raised. -/
def processCsvPhase1 (st : Store) (f rk b : String) (df : List CsvRow) :
    Option (Store × List PendingLog × CsvCounts) :=
  if validate_csv_upload st df f rk b then
    match csvLoop f rk b df ⟨st, [], [], []⟩ with
    | (acc, none) =>
      some (acc.store,
            acc.adds.map PendingLog.cre
              ++ acc.upds.map (fun u => PendingLog.upd u.1 u.2.1 u.2.2.1 u.2.2.2)
              ++ acc.dels.map PendingLog.del,
            ⟨acc.adds.length, acc.upds.length, acc.dels.length⟩)
    | (_, some _) => none
  else none

/-- The whole of process_uploaded_csv: on a completed run, the commit and
then log_bulk_sample_changes and the counts; on a failed run (validation
errors, or the loop's AttributeError/TypeError caught at line 471) no
counts, and the store keeps exactly the deletions performed before the
failure (committed when the enclosing session exits). -/
def process_uploaded_csv (st : Store) (actor : Nat × String) (f rk b : String)
    (df : List CsvRow) : Store × Option CsvCounts :=
  if validate_csv_upload st df f rk b then
    match csvLoop f rk b df ⟨st, [], [], []⟩ with
    | (acc, none) =>
      (appendLogs actor acc.store
        (acc.adds.map PendingLog.cre
          ++ acc.upds.map (fun u => PendingLog.upd u.1 u.2.1 u.2.2.1 u.2.2.2)
          ++ acc.dels.map PendingLog.del),
       some ⟨acc.adds.length, acc.upds.length, acc.dels.length⟩)
    | (acc, some _) => (acc.store, none)
  else (st, none)

/-! ### Concrete fixtures used by witnesses and counterexamples -/

def actorW : Nat × String := (7, "alice")

def rackW : RackRec :=
  { id := "R1", freezer_name := "F1", rows := 2, columns := 2 }

def boxW : BoxRec :=
  { id := "A1", rack_id := "R1", freezer_name := "F1", box_name := "Box1",
    assigned_user := "alice", rows := 2, columns := 2 }

def sampW : Sample :=
  { id := 1, sample_name := "S1", sample_type := "DNA", well := "A1",
    owner := "Alice", date_added := 0, notes := "", species := "",
    resistance := "", regulation := "",
    freezer := "F1", rack := "R1", box := "A1",
    box_id := "A1", rack_id := "R1", freezer_name := "F1" }

/-- A store holding freezer F1 / rack R1 / box A1 (2x2) with one sample. -/
def stW : Store :=
  { freezers := ["F1"], racks := [rackW], boxes := [boxW],
    samples := [sampW], history := [], nextId := 2, nextTime := 0 }

/-- The same store with one prior history row for the sample. -/
def stH : Store :=
  { stW with history := [mkEntry (0, "System") 0 (PendingLog.cre sampW)],
             nextTime := 1 }

/-- Form input identical to sampW except owner Alice -> Bob (Scenario C). -/
def inpBob : SampleInput :=
  { sample_name := "S1", sample_type := "DNA", well := "A1", owner := "Bob",
    notes := "", species := "", resistance := "", date_created := "",
    strain := "", ogtr := "", daff := "" }

/-- Form input for a new sample whose name is an HTML tag: sanitize_input
reduces it to the empty string before validation. -/
def inpTag : SampleInput :=
  { sample_name := "<b>", sample_type := "DNA", well := "A2", owner := "",
    notes := "", species := "", resistance := "", date_created := "",
    strain := "", ogtr := "", daff := "" }

/-- Form input creating a plain second sample in well A2. -/
def inpS2 : SampleInput :=
  { sample_name := "S2", sample_type := "DNA", well := "A2", owner := "Bob",
    notes := "", species := "", resistance := "", date_created := "",
    strain := "", ogtr := "", daff := "" }

/-- A one-row full snapshot for box A1 whose A1 cell has a blank name: a
pure deletion reconciliation, the one kind of bulk run the source
completes. -/
def rowDel : CsvRow :=
  { freezer := "F1", rack := "R1", box := "A1", well := "A1",
    sample_name := "", sample_type := "", owner := "", notes := "",
    species := "", resistance := "", date_created := "", strain := "",
    ogtr := "", daff := "" }

def dfDel : List CsvRow := [rowDel]

/-- A non-blank row for box A1 (well A2): any bulk run containing it dies in
the loop before the commit. -/
def rowS2 : CsvRow :=
  { freezer := "F1", rack := "R1", box := "A1", well := "A2",
    sample_name := "S2", sample_type := "DNA", owner := "Bob", notes := "",
    species := "", resistance := "", date_created := "", strain := "",
    ogtr := "", daff := "" }

/-! ### Notions used to state and prove the invariants -/

/-- All samples a location query filter_by(freezer, rack, box, well) hits. -/
def samplesAt (l : List Sample) (q : String × String × String × String) :
    List Sample :=
  l.filter (fun s => decide (sLoc s = q))

/-- Whether a CSV row belongs to the selected box (line 405's skip test). -/
def rowMatches (f rk b : String) (row : CsvRow) : Prop :=
  row.freezer = f ∧ row.rack = rk ∧ row.box = b

instance (f rk b : String) (row : CsvRow) : Decidable (rowMatches f rk b row) :=
  inferInstanceAs (Decidable (_ ∧ _ ∧ _))

/-! ## Theorems -/

/-! ### Shared helpers -/

theorem appendLogs_frame (actor : Nat × String) :
    ∀ (ls : List PendingLog) (st : Store),
      (appendLogs actor st ls).samples = st.samples ∧
      (appendLogs actor st ls).boxes = st.boxes ∧
      (appendLogs actor st ls).racks = st.racks ∧
      (appendLogs actor st ls).freezers = st.freezers ∧
      (appendLogs actor st ls).nextId = st.nextId := by
  intro ls
  induction ls with
  | nil => intro st; exact ⟨rfl, rfl, rfl, rfl, rfl⟩
  | cons l t ih =>
    intro st
    exact ih (appendLog actor st l)

/-- save_sample never changes the store: every path returns before any
write — a ValidationError, or the AttributeError/TypeError of the missing
model.py columns, all caught and displayed at sample.py lines 281-284. -/
theorem save_sample_fst (st : Store) (selBox : BoxRec) (ex : Option Sample)
    (inp : SampleInput) : (save_sample st selBox ex inp).1 = st := by
  unfold save_sample
  dsimp only
  split
  · rfl
  · split <;> rfl

/-- The Bool predicate of the location queries agrees with sLoc equality
(no exclusion). -/
theorem locPredIff (f rk b w : String) (t : Sample) :
    (decide (t.freezer = f) && decide (t.rack = rk) && decide (t.box = b)
      && decide (t.well = w)) = true ↔ sLoc t = (f, rk, b, w) := by
  unfold sLoc
  simp only [Bool.and_eq_true, decide_eq_true_eq, Prod.mk.injEq]
  tauto

/-- The same predicate with the update-exclusion of validate_unique_sample. -/
theorem locPredExclIff (f rk b w : String) (i : Nat) (t : Sample) :
    (decide (t.freezer = f) && decide (t.rack = rk) && decide (t.box = b)
      && decide (t.well = w) && decide (t.id ≠ i)) = true ↔
      sLoc t = (f, rk, b, w) ∧ t.id ≠ i := by
  unfold sLoc
  simp only [Bool.and_eq_true, decide_eq_true_eq, Prod.mk.injEq]
  tauto

/-- When validate_sample_form succeeds, validate_unique_sample found no
conflicting sample at the location. -/
theorem validateOkFind {st : Store} {f rk b w name ty : String} {excl : Option Nat}
    (h : validate_sample_form st f rk b w name ty excl = Except.ok ()) :
    findSampleAt st f rk b w excl = none := by
  cases hf : findSampleAt st f rk b w excl with
  | none => rfl
  | some t =>
    exfalso
    unfold validate_sample_form at h
    cases hbx : findBox st f rk b with
    | none => rw [hbx] at h; exact absurd h (by simp)
    | some bx =>
      rw [hbx] at h
      dsimp only at h
      split at h
      · exact absurd h (by simp)
      · split at h
        · exact absurd h (by simp)
        · split at h
          · exact absurd h (by simp)
          · split at h
            · exact absurd h (by simp)
            · split at h
              · exact absurd h (by simp)
              · split at h
                · exact absurd h (by simp)
                · rw [hf] at h
                  exact absurd h (by simp)

/-- When validate_sample_form succeeds, the (sanitized) sample name was not
empty. -/
theorem validateOkName {st : Store} {f rk b w name ty : String} {excl : Option Nat}
    (h : validate_sample_form st f rk b w name ty excl = Except.ok ()) :
    name ≠ "" := by
  intro hname
  unfold validate_sample_form at h
  cases hbx : findBox st f rk b with
  | none => rw [hbx] at h; exact absurd h (by simp)
  | some bx =>
    rw [hbx] at h
    dsimp only at h
    split at h
    · exact absurd h (by simp)
    · split at h
      · exact absurd h (by simp)
      · exact absurd h (by simp)

/-- The uniqueness query finds nothing (no exclusion) iff no live sample has
the location. -/
theorem findSampleAtNoneIff (st : Store) (f rk b w : String) :
    findSampleAt st f rk b w none = none ↔
      ∀ t ∈ st.samples, sLoc t ≠ (f, rk, b, w) := by
  unfold findSampleAt
  rw [List.find?_eq_none]
  constructor
  · intro h t ht hl
    exact h t ht (by rw [Bool.and_true, locPredIff]; exact hl)
  · intro h t ht hp
    rw [Bool.and_true, locPredIff] at hp
    exact h t ht hp

/-- The uniqueness query with the update exclusion finds nothing iff no
OTHER live sample has the location. -/
theorem findSampleAtExclNoneIff (st : Store) (f rk b w : String) (i : Nat) :
    findSampleAt st f rk b w (some i) = none ↔
      ∀ t ∈ st.samples, ¬(sLoc t = (f, rk, b, w) ∧ t.id ≠ i) := by
  unfold findSampleAt
  rw [List.find?_eq_none]
  constructor
  · intro h t ht hl
    exact h t ht (by rw [locPredExclIff]; exact hl)
  · intro h t ht hp
    rw [locPredExclIff] at hp
    exact h t ht hp

/-- Under the uniqueness invariant, two samples at the same location are the
same sample. -/
theorem uniqueLocInj {l : List Sample} (hU : UniqueWells l) :
    ∀ t ∈ l, ∀ u ∈ l, sLoc t = sLoc u → t = u := by
  induction l with
  | nil => intro t ht; exact absurd ht (List.not_mem_nil t)
  | cons a rest ih =>
    intro t ht u hu hloc
    have hhead : ∀ u ∈ rest, sLoc a ≠ sLoc u := fun v hv =>
      List.rel_of_pairwise_cons hU hv
    rcases List.mem_cons.mp ht with rfl | ht' <;>
      rcases List.mem_cons.mp hu with rfl | hu'
    · rfl
    · exact absurd hloc (hhead u hu')
    · exact absurd hloc.symm (hhead t ht')
    · exact ih (List.Pairwise.of_cons hU) t ht' u hu' hloc

/-- A well empty in a list stays empty in any sublist. -/
theorem samplesAt_nil_of_sublist {l l2 : List Sample}
    {q : String × String × String × String}
    (hs : l2.Sublist l) (h : samplesAt l q = []) : samplesAt l2 q = [] := by
  unfold samplesAt at h ⊢
  have h2 := hs.filter (fun s => decide (sLoc s = q))
  rw [h] at h2
  exact List.sublist_nil.mp h2

/-- A completing bulk-loop step touches neither history nor boxes and can
only shrink the samples list (the one mutating arm is the deletion). -/
theorem csvRowStep_ok_facts {f rk b : String} {acc acc' : CsvAcc} {row : CsvRow}
    (h : csvRowStep f rk b acc row = Except.ok acc') :
    acc'.store.history = acc.store.history ∧
    acc'.store.boxes = acc.store.boxes ∧
    acc'.store.samples.Sublist acc.store.samples := by
  unfold csvRowStep at h
  by_cases hm : row.freezer = f ∧ row.rack = rk ∧ row.box = b
  case neg =>
    rw [if_neg hm, Except.ok.injEq] at h
    subst h
    exact ⟨rfl, rfl, List.Sublist.refl _⟩
  rw [if_pos hm] at h
  dsimp only at h
  by_cases hbl : blankName row = true
  · rw [if_pos hbl] at h
    cases hex : List.find? (fun s =>
        decide (s.freezer = row.freezer) && decide (s.rack = row.rack)
          && decide (s.box = row.box) && decide (s.well = row.well))
        acc.store.samples with
    | some ex =>
      rw [hex] at h
      dsimp only at h
      rw [Except.ok.injEq] at h
      subst h
      exact ⟨rfl, rfl, List.filter_sublist _⟩
    | none =>
      rw [hex] at h
      dsimp only at h
      rw [Except.ok.injEq] at h
      subst h
      exact ⟨rfl, rfl, List.Sublist.refl _⟩
  · rw [if_neg hbl] at h
    cases hex : List.find? (fun s =>
        decide (s.freezer = row.freezer) && decide (s.rack = row.rack)
          && decide (s.box = row.box) && decide (s.well = row.well))
        acc.store.samples with
    | some ex => rw [hex] at h; exact absurd h (by simp)
    | none => rw [hex] at h; exact absurd h (by simp)

/-- The only in-box rows a completing step can be is a blank one: the
non-blank arms raise on the missing model.py columns. -/
theorem csvRowStep_ok_blank {f rk b : String} {acc acc' : CsvAcc} {row : CsvRow}
    (h : csvRowStep f rk b acc row = Except.ok acc')
    (hm : row.freezer = f ∧ row.rack = rk ∧ row.box = b) :
    blankName row = true := by
  by_cases hbl : blankName row = true
  · exact hbl
  · exfalso
    unfold csvRowStep at h
    rw [if_pos hm] at h
    dsimp only at h
    rw [if_neg hbl] at h
    cases hex : List.find? (fun s =>
        decide (s.freezer = row.freezer) && decide (s.rack = row.rack)
          && decide (s.box = row.box) && decide (s.well = row.well))
        acc.store.samples with
    | some ex => rw [hex] at h; exact absurd h (by simp)
    | none => rw [hex] at h; exact absurd h (by simp)

/-- After its own (blank) step, a row's well holds no sample. -/
theorem csvRowStep_ok_post {f rk b : String} {acc acc' : CsvAcc} {row : CsvRow}
    (hm : row.freezer = f ∧ row.rack = rk ∧ row.box = b)
    (hbl : blankName row = true)
    (hU : UniqueWells acc.store.samples)
    (h : csvRowStep f rk b acc row = Except.ok acc') :
    samplesAt acc'.store.samples (row.freezer, row.rack, row.box, row.well) = [] := by
  unfold csvRowStep at h
  rw [if_pos hm] at h
  dsimp only at h
  rw [if_pos hbl] at h
  cases hex : List.find? (fun s =>
      decide (s.freezer = row.freezer) && decide (s.rack = row.rack)
        && decide (s.box = row.box) && decide (s.well = row.well))
      acc.store.samples with
  | none =>
    rw [hex] at h
    dsimp only at h
    rw [Except.ok.injEq] at h
    subst h
    unfold samplesAt
    rw [List.filter_eq_nil_iff]
    intro t ht
    simp only [decide_eq_true_eq]
    intro hl
    exact List.find?_eq_none.mp hex t ht (by rw [locPredIff]; exact hl)
  | some ex =>
    rw [hex] at h
    dsimp only at h
    rw [Except.ok.injEq] at h
    subst h
    have hexmem : ex ∈ acc.store.samples := List.mem_of_find?_eq_some hex
    have hexloc : sLoc ex = (row.freezer, row.rack, row.box, row.well) := by
      have hpx := List.find?_some hex
      rwa [locPredIff] at hpx
    unfold samplesAt
    rw [List.filter_eq_nil_iff]
    intro t ht
    simp only [decide_eq_true_eq]
    intro hl
    have htmem : t ∈ acc.store.samples := List.mem_of_mem_filter ht
    have hid : t.id ≠ ex.id := by
      have h2 := (List.mem_filter.mp ht).2
      simpa using h2
    exact hid (congrArg Sample.id
      (uniqueLocInj hU t htmem ex hexmem (hl.trans hexloc.symm)))

/-- Unfolding equation of the bulk loop on a cons cell. -/
theorem csvLoop_cons (f rk b : String) (row : CsvRow) (rest : List CsvRow)
    (acc : CsvAcc) :
    csvLoop f rk b (row :: rest) acc =
      match csvRowStep f rk b acc row with
      | Except.ok acc' => csvLoop f rk b rest acc'
      | Except.error e => (acc, some e) := rfl

/-- A step that completes continues the loop on the new accumulator. -/
theorem csvLoop_cons_ok (f rk b : String) (row : CsvRow) (rest : List CsvRow)
    (acc acc' : CsvAcc) (hstep : csvRowStep f rk b acc row = Except.ok acc') :
    csvLoop f rk b (row :: rest) acc = csvLoop f rk b rest acc' := by
  rw [csvLoop_cons, hstep]

/-- A step that raises aborts the loop with the current accumulator. -/
theorem csvLoop_cons_error (f rk b : String) (row : CsvRow) (rest : List CsvRow)
    (acc : CsvAcc) (e : String) (hstep : csvRowStep f rk b acc row = Except.error e) :
    csvLoop f rk b (row :: rest) acc = (acc, some e) := by
  rw [csvLoop_cons, hstep]

/-- Whatever the loop's outcome, its accumulator's store has the original
history and boxes, and a sub-multiset of the original samples. -/
theorem csvLoop_facts (f rk b : String) :
    ∀ (df : List CsvRow) (acc : CsvAcc),
      (csvLoop f rk b df acc).1.store.history = acc.store.history ∧
      (csvLoop f rk b df acc).1.store.boxes = acc.store.boxes ∧
      (csvLoop f rk b df acc).1.store.samples.Sublist acc.store.samples := by
  intro df
  induction df with
  | nil => intro acc; exact ⟨rfl, rfl, List.Sublist.refl _⟩
  | cons row rest ih =>
    intro acc
    cases hstep : csvRowStep f rk b acc row with
    | ok acc' =>
      have hfacts := csvRowStep_ok_facts hstep
      have hrest := ih acc'
      have heq : csvLoop f rk b (row :: rest) acc = csvLoop f rk b rest acc' :=
        csvLoop_cons_ok f rk b row rest acc acc' hstep
      rw [heq]
      exact ⟨hrest.1.trans hfacts.1, hrest.2.1.trans hfacts.2.1,
        hrest.2.2.trans hfacts.2.2⟩
    | error e =>
      have heq : csvLoop f rk b (row :: rest) acc = (acc, some e) :=
        csvLoop_cons_error f rk b row rest acc e hstep
      rw [heq]
      exact ⟨rfl, rfl, List.Sublist.refl _⟩

/-- A loop that completed saw only blank rows for the selected box. -/
theorem csvLoop_success_blank (f rk b : String) :
    ∀ (df : List CsvRow) (acc : CsvAcc),
      (csvLoop f rk b df acc).2 = none →
      ∀ row ∈ df, row.freezer = f ∧ row.rack = rk ∧ row.box = b →
        blankName row = true := by
  intro df
  induction df with
  | nil => intro acc _ row hrow; exact absurd hrow (List.not_mem_nil row)
  | cons row0 rest ih =>
    intro acc hnone row hrow hm
    cases hstep : csvRowStep f rk b acc row0 with
    | ok acc' =>
      have heq : csvLoop f rk b (row0 :: rest) acc = csvLoop f rk b rest acc' :=
        csvLoop_cons_ok f rk b row0 rest acc acc' hstep
      rw [heq] at hnone
      rcases List.mem_cons.mp hrow with rfl | hrow'
      · exact csvRowStep_ok_blank hstep hm
      · exact ih acc' hnone row hrow' hm
    | error e =>
      have heq : csvLoop f rk b (row0 :: rest) acc = (acc, some e) :=
        csvLoop_cons_error f rk b row0 rest acc e hstep
      rw [heq] at hnone
      exact absurd hnone (by simp)

/-- After a completed loop, every in-box row's well is empty. -/
theorem csvLoop_post (f rk b : String) :
    ∀ (df : List CsvRow) (acc : CsvAcc),
      UniqueWells acc.store.samples →
      (csvLoop f rk b df acc).2 = none →
      ∀ row ∈ df, row.freezer = f ∧ row.rack = rk ∧ row.box = b →
        samplesAt (csvLoop f rk b df acc).1.store.samples
          (row.freezer, row.rack, row.box, row.well) = [] := by
  intro df
  induction df with
  | nil => intro acc _ _ row hrow; exact absurd hrow (List.not_mem_nil row)
  | cons row0 rest ih =>
    intro acc hU hnone row hrow hm
    cases hstep : csvRowStep f rk b acc row0 with
    | ok acc' =>
      have heq : csvLoop f rk b (row0 :: rest) acc = csvLoop f rk b rest acc' :=
        csvLoop_cons_ok f rk b row0 rest acc acc' hstep
      rw [heq] at hnone ⊢
      have hU' : UniqueWells acc'.store.samples :=
        hU.sublist (csvRowStep_ok_facts hstep).2.2
      rcases List.mem_cons.mp hrow with rfl | hrow'
      · have hbl := csvRowStep_ok_blank hstep hm
        have hpost := csvRowStep_ok_post hm hbl hU hstep
        exact samplesAt_nil_of_sublist (csvLoop_facts f rk b rest acc').2.2 hpost
      · exact ih acc' hU' hnone row hrow' hm
    | error e =>
      have heq : csvLoop f rk b (row0 :: rest) acc = (acc, some e) :=
        csvLoop_cons_error f rk b row0 rest acc e hstep
      rw [heq] at hnone
      exact absurd hnone (by simp)

/-- A loop over a snapshot whose in-box rows are all blank with already
empty wells is a complete no-op. -/
theorem csvLoop_noop (f rk b : String) :
    ∀ (df : List CsvRow) (acc : CsvAcc),
      (∀ row ∈ df, row.freezer = f ∧ row.rack = rk ∧ row.box = b →
        blankName row = true ∧
        samplesAt acc.store.samples (row.freezer, row.rack, row.box, row.well) = []) →
      csvLoop f rk b df acc = (acc, none) := by
  intro df
  induction df with
  | nil => intro acc _; rfl
  | cons row0 rest ih =>
    intro acc hpre
    have hstep : csvRowStep f rk b acc row0 = Except.ok acc := by
      unfold csvRowStep
      by_cases hm : row0.freezer = f ∧ row0.rack = rk ∧ row0.box = b
      case neg => rw [if_neg hm]
      rw [if_pos hm]
      obtain ⟨hbl, hempty⟩ := hpre row0 (List.mem_cons_self row0 rest) hm
      dsimp only
      have hfind : List.find? (fun s =>
          decide (s.freezer = row0.freezer) && decide (s.rack = row0.rack)
            && decide (s.box = row0.box) && decide (s.well = row0.well))
          acc.store.samples = none := by
        rw [List.find?_eq_none]
        intro t ht hp
        rw [locPredIff] at hp
        unfold samplesAt at hempty
        exact (List.filter_eq_nil_iff.mp hempty t ht) (by simp [hp])
      rw [hfind, if_pos hbl]
    have heq : csvLoop f rk b (row0 :: rest) acc = csvLoop f rk b rest acc :=
      csvLoop_cons_ok f rk b row0 rest acc acc hstep
    rw [heq]
    exact ih acc (fun row hr hm => hpre row (List.mem_cons_of_mem row0 hr) hm)

/-- CSV validation only looks at the snapshot and at the box row, so stores
with the same boxes validate identically. -/
theorem validate_csv_upload_boxes {st st' : Store} (h : st'.boxes = st.boxes)
    (df : List CsvRow) (f rk b : String) :
    validate_csv_upload st' df f rk b = validate_csv_upload st df f rk b := by
  unfold validate_csv_upload findBox
  rw [h]

/-! ### Claim C8 (corrected) -/

/-- Claim C8, counterexample: the claim says the coordinate-label function
fails with a RangeError whenever the row index is at least 26; in the code
the label expression chr(65+r) does not fail there, it silently yields the
character after Z, so row 26, column 0 gives the label consisting of the
opening-square-bracket character followed by 1. -/
theorem C8_counterexample : coordinateFor 26 0 = Except.ok (String.mk ['[', '1']) := rfl

/-- Claim C8, amended: for row indices 0-25 the label is the row letter
(A..Z) followed by the 1-based column number; for row index 26 the
expression does NOT fail but produces the character after Z followed by the
column number (chr only raises above the Unicode range). -/
theorem C8_coordinate_labels :
    (∀ r c : Nat, r < 26 →
      coordinateFor r c = Except.ok (String.mk [rowLetter r] ++ Nat.repr (c + 1)))
    ∧ (∀ c : Nat, coordinateFor 26 c = Except.ok (String.mk ['['] ++ Nat.repr (c + 1))) := by
  constructor
  · intro r c h
    interval_cases r <;> rfl
  · intro c
    rfl

/-- Witness for C8_coordinate_labels at row 1, column 0 (label B1). -/
theorem C8_coordinate_labels_witness :
    (1 : Nat) < 26 ∧
      coordinateFor 1 0 = Except.ok (String.mk [rowLetter 1] ++ Nat.repr 1) :=
  ⟨by decide, C8_coordinate_labels.1 1 0 (by decide)⟩

/-! ### Claim C1 (corrected) -/

/-- Claim C1, counterexample: the claim demands exactly one deleted audit
entry per sample that existed transitively under a deleted freezer.  In the
store stW the sample sampW sits in box A1 of rack R1 of freezer F1; the
delete-confirmation flow's delete_freezer removes it via the ORM cascade,
yet appends zero deleted entries for it (it calls no log function at all). -/
theorem C1_counterexample :
    sampW ∈ stW.samples ∧ boxW ∈ stW.boxes ∧ rackW ∈ stW.racks ∧
    rackW.freezer_name = "F1" ∧ boxW.rack_id = rackW.id ∧
    sampW.box_id = boxW.id ∧ sampW.rack_id = boxW.rack_id ∧
    sampW.freezer_name = boxW.freezer_name ∧
    (delete_freezer stW "F1").samples = [] ∧
    ((delete_freezer stW "F1").history.filter (fun e =>
      decide (e.action = "deleted") && decide (e.sample_id = sampW.id))).length = 0 := by
  decide

/-- Claim C1, amended: deleting a Freezer through the delete-confirmation
flow cascades removal of its racks, their boxes and those boxes' samples,
but appends ZERO audit entries: none for the removed samples (and, as the
claim already said, none for racks and boxes either) — the cascade runs
purely through the ORM relationship annotations with no logging. -/
theorem C1_delete_freezer_no_audit (st : Store) (name : String) :
    (delete_freezer st name).history = st.history ∧
    (name ∈ st.freezers →
      ∀ s ∈ st.samples, ∀ b ∈ st.boxes, ∀ r ∈ st.racks,
        r.freezer_name = name → b.rack_id = r.id →
        s.box_id = b.id → s.rack_id = b.rack_id → s.freezer_name = b.freezer_name →
        s ∉ (delete_freezer st name).samples) := by
  constructor
  · unfold delete_freezer
    split <;> rfl
  · intro hname s hs b hb r hr hrf hbr hsb hsr hsf
    have hc : st.freezers.contains name = true := by
      simpa using hname
    unfold delete_freezer
    rw [if_pos hc]
    intro hmem
    have := (List.mem_filter.mp hmem).2
    simp only [Bool.not_eq_true'] at this
    rw [List.any_eq_false] at this
    have hbmem : b ∈ List.filter
        (fun bb => List.any (List.filter (fun rr => decide (rr.freezer_name = name)) st.racks)
          (fun rr => decide (rr.id = bb.rack_id))) st.boxes := by
      refine List.mem_filter.mpr ⟨hb, ?_⟩
      rw [List.any_eq_true]
      exact ⟨r, List.mem_filter.mpr ⟨hr, by simpa using hrf⟩, by simpa using hbr.symm⟩
    have h2 := this b hbmem
    simp only [Bool.and_eq_true, decide_eq_true_eq, not_and] at h2
    exact h2 ⟨hsb.symm, hsr.symm⟩ hsf.symm

/-- Witness for C1_delete_freezer_no_audit on the concrete store stW. -/
theorem C1_delete_freezer_no_audit_witness :
    (delete_freezer stW "F1").history = stW.history ∧
    sampW ∉ (delete_freezer stW "F1").samples :=
  ⟨(C1_delete_freezer_no_audit stW "F1").1,
   (C1_delete_freezer_no_audit stW "F1").2 (by decide) sampW (by decide)
     boxW (by decide) rackW (by decide) rfl rfl rfl rfl rfl⟩

/-! ### Claim C2 (corrected) -/

/-- Claim C2, counterexample: the only kind of bulk run the source completes
is a deletion-only reconciliation (every in-box row blank), and there the
deletions are committed (sample.py line 463) BEFORE log_bulk_sample_changes
appends the deleted-sample entries, each in a session of its own
(sample_history.py line 47).  On stW with the snapshot dfDel the committed
phase-1 state already lacks the sample while the history is still empty, so
a failure of the later audit append would leave the deletion durably
committed with no audit entry and nothing to roll it back — against the
claim that such a state cannot occur. -/
theorem C2_counterexample :
    sampW ∈ stW.samples ∧ stW.history = [] ∧
    ∃ trip, processCsvPhase1 stW "F1" "R1" "A1" dfDel = some trip ∧
      trip.1.history = [] ∧
      ∀ t ∈ trip.1.samples, t.id ≠ sampW.id := by
  refine ⟨by decide, rfl, _, rfl, rfl, by decide⟩

/-- Claim C2, amended: audit entries are appended only AFTER the mutation
phase's own session.commit(), in separate sessions, with no rollback
coupling: for every bulk run the code completes, the committed phase-1
store still has the pre-run history, and the full operation is the
phase-1 store followed by the audit appends; the single-sample save paths
never commit at all (they error out on the schema mismatch or on
validation), so they trivially produce no unaudited mutation. -/
theorem C2_commit_precedes_audit :
    (∀ st actor f rk b df trip,
      processCsvPhase1 st f rk b df = some trip →
      trip.1.history = st.history ∧
      process_uploaded_csv st actor f rk b df =
        (appendLogs actor trip.1 trip.2.1, some trip.2.2))
    ∧ (∀ st selBox ex inp, (save_sample st selBox ex inp).1 = st) := by
  constructor
  · intro st actor f rk b df trip h
    unfold processCsvPhase1 at h
    by_cases hval : validate_csv_upload st df f rk b = true
    · rw [if_pos hval] at h
      cases hL : csvLoop f rk b df ⟨st, [], [], []⟩ with
      | mk acc err =>
        rw [hL] at h
        cases err with
        | none =>
          dsimp only at h
          rw [Option.some.injEq] at h
          subst h
          have hacc : (csvLoop f rk b df ⟨st, [], [], []⟩).1 = acc := by rw [hL]
          constructor
          · show acc.store.history = st.history
            rw [← hacc]
            exact (csvLoop_facts f rk b df ⟨st, [], [], []⟩).1
          · unfold process_uploaded_csv
            rw [if_pos hval, hL]
        | some e =>
          dsimp only at h
          exact absurd h (by simp)
    · rw [if_neg hval] at h
      exact absurd h (by simp)
  · intro st selBox ex inp
    exact save_sample_fst st selBox ex inp

theorem C2_commit_precedes_audit_witness :
    ∃ trip, processCsvPhase1 stW "F1" "R1" "A1" dfDel = some trip ∧
      trip.1.history = stW.history ∧
      process_uploaded_csv stW actorW "F1" "R1" "A1" dfDel =
        (appendLogs actorW trip.1 trip.2.1, some trip.2.2) ∧
      (save_sample stW boxW (some sampW) inpBob).1 = stW := by
  obtain ⟨trip, htrip⟩ :
      ∃ trip, processCsvPhase1 stW "F1" "R1" "A1" dfDel = some trip := ⟨_, rfl⟩
  have h := C2_commit_precedes_audit
  have h1 := h.1 stW actorW "F1" "R1" "A1" dfDel trip htrip
  exact ⟨trip, htrip, h1.1, h1.2, h.2 stW boxW (some sampW) inpBob⟩

/-! ### Claim C5 (confirmed) -/

/-- Claim C5: relocating an existing Box to a different slot of its Rack
preserves every contained Sample — each sample that was in the box is, after
the relocation, present under the new location tuple (same freezer, same
rack, new slot id, same well, same data) — and the relocation appends zero
audit entries. -/
theorem C5_box_relocation_preserves_samples
    (st st' : Store) (rk : RackRec) (oldBox : BoxRec) (name user : String)
    (rows cols : Nat) (pos : String)
    (hpos : pos ≠ oldBox.id)
    (hst' : st' = save_box_update st rk oldBox name user rows cols pos) :
    st'.history = st.history ∧
    ∀ s ∈ st.samples, s.freezer = rk.freezer_name → s.rack = rk.id →
      s.box = oldBox.id →
      ∃ s' ∈ st'.samples,
        s'.freezer = s.freezer ∧ s'.rack = s.rack ∧ s'.box = pos ∧
        s'.well = s.well ∧ s'.id = s.id ∧
        s'.sample_name = s.sample_name ∧ s'.sample_type = s.sample_type ∧
        s'.owner = s.owner ∧ s'.notes = s.notes := by
  subst hst'
  unfold save_box_update
  rw [if_pos hpos]
  refine ⟨rfl, ?_⟩
  intro s hs hf hr hb
  refine ⟨{ s with box := pos }, ?_, rfl, rfl, rfl, rfl, rfl, rfl, rfl, rfl, rfl⟩
  exact List.mem_map.mpr ⟨s, hs, by rw [if_pos ⟨hb, hr, hf⟩]⟩

/-- Witness for C5 on stW: relocating box A1 to slot B2 keeps sampW
reachable at (F1, R1, B2, well A1) and writes no history. -/
theorem C5_box_relocation_witness :
    (save_box_update stW rackW boxW "Box1" "alice" 2 2 "B2").history = stW.history ∧
    ∃ s' ∈ (save_box_update stW rackW boxW "Box1" "alice" 2 2 "B2").samples,
      s'.freezer = "F1" ∧ s'.rack = "R1" ∧ s'.box = "B2" ∧ s'.well = "A1" ∧
      s'.id = 1 ∧ s'.sample_name = "S1" := by
  have h := C5_box_relocation_preserves_samples stW _ rackW boxW "Box1" "alice"
    2 2 "B2" (by decide) rfl
  refine ⟨h.1, ?_⟩
  obtain ⟨s', hmem, hf, hr, hb, hw, hid, hn, -⟩ :=
    h.2 sampW (by decide) rfl rfl rfl
  exact ⟨s', hmem, hf, hr, hb, hw, hid, hn⟩

/-! ### Claim C9 (confirmed) -/

/-- Claim C9: relocating a Box rewrites only the denormalized box column of
its contained samples; their id, well, all data fields, and in particular
the foreign-key columns box_id, rack_id and freezer_name are untouched
(samples outside the box are untouched entirely), and after the relocation
no Box row carries the old (id, rack_id, freezer_name) primary key any
more, so a contained sample's retained (box_id, rack_id, freezer_name)
triple no longer matches any Box row. -/
theorem C9_relocation_changes_only_box_column
    (st st' : Store) (rk : RackRec) (oldBox : BoxRec) (name user : String)
    (rows cols : Nat) (pos : String)
    (hpos : pos ≠ oldBox.id)
    (hst' : st' = save_box_update st rk oldBox name user rows cols pos) :
    (∀ s ∈ st.samples, s.box = oldBox.id → s.rack = rk.id →
      s.freezer = rk.freezer_name →
      ∃ s' ∈ st'.samples, s'.box = pos ∧ s'.id = s.id ∧
        s'.box_id = s.box_id ∧ s'.rack_id = s.rack_id ∧
        s'.freezer_name = s.freezer_name ∧ s'.well = s.well ∧
        s'.sample_name = s.sample_name ∧ s'.sample_type = s.sample_type ∧
        s'.owner = s.owner ∧ s'.notes = s.notes ∧ s'.species = s.species ∧
        s'.resistance = s.resistance ∧ s'.date_added = s.date_added ∧
        s'.regulation = s.regulation ∧
        s'.freezer = s.freezer ∧ s'.rack = s.rack) ∧
    (∀ s ∈ st.samples,
      ¬(s.box = oldBox.id ∧ s.rack = rk.id ∧ s.freezer = rk.freezer_name) →
      s ∈ st'.samples) ∧
    (∀ b ∈ st'.boxes,
      ¬(b.id = oldBox.id ∧ b.rack_id = oldBox.rack_id ∧
        b.freezer_name = oldBox.freezer_name)) := by
  subst hst'
  unfold save_box_update
  rw [if_pos hpos]
  refine ⟨?_, ?_, ?_⟩
  · intro s hs hb hr hf
    exact ⟨{ s with box := pos },
      List.mem_map.mpr ⟨s, hs, by rw [if_pos ⟨hb, hr, hf⟩]⟩,
      rfl, rfl, rfl, rfl, rfl, rfl, rfl, rfl, rfl, rfl, rfl, rfl, rfl, rfl,
      rfl, rfl⟩
  · intro s hs hnot
    exact List.mem_map.mpr ⟨s, hs, by rw [if_neg hnot]⟩
  · intro b' hb' hpk
    obtain ⟨b, hb, hbeq⟩ := List.mem_map.mp hb'
    by_cases hc : b.id = oldBox.id ∧ b.rack_id = oldBox.rack_id ∧
        b.freezer_name = oldBox.freezer_name
    · rw [if_pos hc] at hbeq
      rw [← hbeq] at hpk
      exact hpos hpk.1
    · rw [if_neg hc] at hbeq
      rw [← hbeq] at hpk
      exact hc hpk

/-- Witness for C9 on stW: after relocating box A1 to slot B2, sampW's image
keeps box_id A1 while no box row carries (A1, R1, F1) any more. -/
theorem C9_relocation_changes_only_box_column_witness :
    (∃ s' ∈ (save_box_update stW rackW boxW "Box1" "alice" 2 2 "B2").samples,
      s'.box = "B2" ∧ s'.box_id = "A1" ∧ s'.rack_id = "R1" ∧
      s'.freezer_name = "F1" ∧ s'.well = "A1") ∧
    ∀ b ∈ (save_box_update stW rackW boxW "Box1" "alice" 2 2 "B2").boxes,
      ¬(b.id = "A1" ∧ b.rack_id = "R1" ∧ b.freezer_name = "F1") := by
  have h := C9_relocation_changes_only_box_column stW _ rackW boxW "Box1"
    "alice" 2 2 "B2" (by decide) rfl
  constructor
  · obtain ⟨s', hmem, hb, hid, hbid, hrid, hfn, hw, -⟩ :=
      h.1 sampW (by decide) rfl rfl rfl
    exact ⟨s', hmem, hb, hbid, hrid, hfn, hw⟩
  · exact h.2.2

/-! ### Claim C3 (confirmed) -/

/-- Claim C3: deleting a sample removes the sample row but no history row
(the sample_history foreign key's ON DELETE CASCADE is inert: the engine is
SQLite with foreign-key enforcement never enabled, and no code deletes
history rows), and the audit-trail query for the sample's surrogate id then
returns exactly the entries ever appended for that id — including the new
deleted entry — ordered newest first, even though the sample is gone. -/
theorem C3_history_survives_sample_deletion
    (st : Store) (actor : Nat × String) (s : Sample) (_hs : s ∈ st.samples) :
    (∀ e ∈ st.history, e ∈ (deleteSampleOp st actor s).history) ∧
    (∀ t ∈ (deleteSampleOp st actor s).samples, t.id ≠ s.id) ∧
    (∀ e, e ∈ historyFor (deleteSampleOp st actor s) s.id ↔
      e ∈ (deleteSampleOp st actor s).history ∧ e.sample_id = s.id) ∧
    List.Sorted histLE (historyFor (deleteSampleOp st actor s) s.id) ∧
    mkEntry actor st.nextTime (PendingLog.del s) ∈
      historyFor (deleteSampleOp st actor s) s.id := by
  have hhist : (deleteSampleOp st actor s).history =
      st.history ++ [mkEntry actor st.nextTime (PendingLog.del s)] := rfl
  have hmemIff : ∀ e, e ∈ historyFor (deleteSampleOp st actor s) s.id ↔
      e ∈ (deleteSampleOp st actor s).history ∧ e.sample_id = s.id := by
    intro e
    unfold historyFor
    rw [(List.perm_insertionSort histLE _).mem_iff, List.mem_filter]
    simp
  refine ⟨?_, ?_, hmemIff, ?_, ?_⟩
  · intro e he
    rw [hhist]
    exact List.mem_append_left _ he
  · intro t ht
    have := (List.mem_filter.mp ht).2
    simpa using this
  · exact List.sorted_insertionSort histLE _
  · refine (hmemIff _).mpr ⟨?_, rfl⟩
    rw [hhist]
    exact List.mem_append_right _ (List.mem_singleton.mpr rfl)

/-- Witness for C3 on stH (which already holds a created entry for sample
1): after deleting the sample, both the old entry and the new deleted entry
are returned for id 1, the result is newest-first, and the sample is gone. -/
theorem C3_history_survives_sample_deletion_witness :
    mkEntry (0, "System") 0 (PendingLog.cre sampW) ∈
      historyFor (deleteSampleOp stH actorW sampW) 1 ∧
    mkEntry actorW stH.nextTime (PendingLog.del sampW) ∈
      historyFor (deleteSampleOp stH actorW sampW) 1 ∧
    List.Sorted histLE (historyFor (deleteSampleOp stH actorW sampW) 1) ∧
    ∀ t ∈ (deleteSampleOp stH actorW sampW).samples, t.id ≠ 1 := by
  have h := C3_history_survives_sample_deletion stH actorW sampW (by decide)
  exact ⟨(h.2.2.1 _).mpr ⟨h.1 _ (by decide), rfl⟩, h.2.2.2.2, h.2.2.2.1, h.2.1⟩

/-! ### Claim C6 (code_bug) -/

/-- Claim C6 states what sample.py's update branch (lines 194-248) is
plainly written to do: diff the eleven form fields against the stored
values and log exactly one history entry per changed field, with the old
and new values.  The code cannot perform it: model.py's Sample declares no
date_created column, so after validation succeeds the diff chain raises
AttributeError at sample.py line 219 — before any assignment, before the
commit at line 244 and before any log_sample_update call at line 247 — and
the handler at lines 281-284 just displays the error.  Scenario C of the
claim (changing only the owner from Alice to Bob) therefore yields an
error, an unchanged store and ZERO new audit entries instead of the claimed
exactly one: the claim describes the evident intent, and the schema
mismatch is a bug in the code.  This theorem runs the embedded code at
that failing input: validation passes, yet save_sample returns the
AttributeError and the store — history included — is untouched. -/
theorem C6_update_one_entry_per_changed_field :
    validate_sample_form stW "F1" "R1" "A1" "A1" "S1" "DNA" (some 1) =
      Except.ok () ∧
    sampW.owner = "Alice" ∧ sanitize_input inpBob.owner = "Bob" ∧
    save_sample stW boxW (some sampW) inpBob =
      (stW, some "Error saving sample: AttributeError: date_created") ∧
    (save_sample stW boxW (some sampW) inpBob).1.history = stW.history :=
  ⟨rfl, rfl, rfl, rfl, rfl⟩

/-! ### Claim C4 (confirmed) -/

/-- Claim C4: at most one live sample per (freezer, rack, box, well), and a
create or move targeting an occupied well is rejected with a
ValidationError.  In the code as written: the single-sample save returns
before any write on every input (validation failure, or the model.py schema
mismatch right after validation), so it preserves the invariant by leaving
the store untouched; bulk reconciliation only ever deletes samples, on
completed and on aborted runs alike, so it preserves the invariant too; and
validate_sample_form — run by save_sample before anything else — rejects
any target location already occupied by a live sample (by a different
sample than the one being edited, in the update case). -/
theorem C4_well_uniqueness_invariant
    (st : Store) (hU : UniqueWells st.samples) :
    (∀ selBox ex inp,
      (save_sample st selBox ex inp).1 = st ∧
      UniqueWells (save_sample st selBox ex inp).1.samples)
    ∧ (∀ actor f rk b df,
      UniqueWells (process_uploaded_csv st actor f rk b df).1.samples)
    ∧ (∀ f rk b w name ty,
      (∃ t ∈ st.samples, sLoc t = (f, rk, b, w)) →
      ∃ e, validate_sample_form st f rk b w name ty none = Except.error e)
    ∧ (∀ f rk b w name ty i,
      (∃ t ∈ st.samples, t.id ≠ i ∧ sLoc t = (f, rk, b, w)) →
      ∃ e, validate_sample_form st f rk b w name ty (some i) =
        Except.error e) := by
  refine ⟨?_, ?_, ?_, ?_⟩
  · intro selBox ex inp
    have h := save_sample_fst st selBox ex inp
    exact ⟨h, by rw [h]; exact hU⟩
  · intro actor f rk b df
    unfold process_uploaded_csv
    by_cases hval : validate_csv_upload st df f rk b = true
    · rw [if_pos hval]
      cases hL : csvLoop f rk b df ⟨st, [], [], []⟩ with
      | mk acc err =>
        have hacc : (csvLoop f rk b df ⟨st, [], [], []⟩).1 = acc := by rw [hL]
        have hsub : acc.store.samples.Sublist st.samples := by
          rw [← hacc]
          exact (csvLoop_facts f rk b df ⟨st, [], [], []⟩).2.2
        cases err with
        | none =>
          dsimp only
          rw [(appendLogs_frame actor _ _).1]
          exact hU.sublist hsub
        | some e =>
          dsimp only
          exact hU.sublist hsub
    · rw [if_neg hval]
      exact hU
  · intro f rk b w name ty hocc
    cases hv : validate_sample_form st f rk b w name ty none with
    | error e => exact ⟨e, rfl⟩
    | ok u =>
      exfalso
      cases u
      have hfind := validateOkFind hv
      rw [findSampleAtNoneIff] at hfind
      obtain ⟨t, ht, hl⟩ := hocc
      exact hfind t ht hl
  · intro f rk b w name ty i hocc
    cases hv : validate_sample_form st f rk b w name ty (some i) with
    | error e => exact ⟨e, rfl⟩
    | ok u =>
      exfalso
      cases u
      have hfind := validateOkFind hv
      rw [findSampleAtExclNoneIff] at hfind
      obtain ⟨t, ht, htid, hl⟩ := hocc
      exact hfind t ht ⟨hl, htid⟩

theorem C4_well_uniqueness_invariant_witness :
    UniqueWells stW.samples ∧
    (save_sample stW boxW none inpS2).1 = stW ∧
    UniqueWells (process_uploaded_csv stW actorW "F1" "R1" "A1" dfDel).1.samples ∧
    ∃ e, validate_sample_form stW "F1" "R1" "A1" "A1" "S2" "DNA" none =
      Except.error e := by
  have hU : UniqueWells stW.samples := by unfold UniqueWells; decide
  have h := C4_well_uniqueness_invariant stW hU
  exact ⟨hU, (h.1 boxW none inpS2).1, h.2.1 actorW "F1" "R1" "A1" dfDel,
    h.2.2.1 "F1" "R1" "A1" "A1" "S2" "DNA" ⟨sampW, by decide, by decide⟩⟩

/-! ### Claim C7 (confirmed) -/

/-- Claim C7: bulk reconciliation is idempotent for every run the source
carries to completion.  If uploading a snapshot to a box reports counts
(that is, the run reached the commit and returned added/updated/deleted
totals — in this code exactly the deletion-only reconciliations, since any
in-box row with a non-blank name dies on the model.py schema mismatch
before the commit and returns no counts), then re-uploading the same
snapshot to the same box marks no row as added, updated or deleted: the
second run reports 0/0/0 and leaves the store exactly as the first run
left it. -/
theorem C7_bulk_reconciliation_idempotent
    (st st1 : Store) (actor : Nat × String) (f rk b : String)
    (df : List CsvRow) (c : CsvCounts) (hU : UniqueWells st.samples)
    (h1 : process_uploaded_csv st actor f rk b df = (st1, some c)) :
    process_uploaded_csv st1 actor f rk b df = (st1, some ⟨0, 0, 0⟩) := by
  unfold process_uploaded_csv at h1
  by_cases hval : validate_csv_upload st df f rk b = true
  · rw [if_pos hval] at h1
    cases hL : csvLoop f rk b df ⟨st, [], [], []⟩ with
    | mk acc err =>
      rw [hL] at h1
      cases err with
      | some e =>
        dsimp only at h1
        rw [Prod.mk.injEq] at h1
        exact absurd h1.2 (by simp)
      | none =>
        dsimp only at h1
        rw [Prod.mk.injEq] at h1
        obtain ⟨hst1, -⟩ := h1
        have hacc : (csvLoop f rk b df ⟨st, [], [], []⟩).1 = acc := by rw [hL]
        have herr : (csvLoop f rk b df ⟨st, [], [], []⟩).2 = none := by rw [hL]
        have hsamps : st1.samples = acc.store.samples := by
          rw [← hst1]
          exact (appendLogs_frame actor _ acc.store).1
        have hboxes : st1.boxes = st.boxes := by
          rw [← hst1, (appendLogs_frame actor _ acc.store).2.1, ← hacc]
          exact (csvLoop_facts f rk b df ⟨st, [], [], []⟩).2.1
        have hU1 : UniqueWells st1.samples := by
          rw [hsamps, ← hacc]
          exact hU.sublist (csvLoop_facts f rk b df ⟨st, [], [], []⟩).2.2
        have hval1 : validate_csv_upload st1 df f rk b = true := by
          rw [validate_csv_upload_boxes hboxes df f rk b]
          exact hval
        have hpre : ∀ row ∈ df, row.freezer = f ∧ row.rack = rk ∧ row.box = b →
            blankName row = true ∧
            samplesAt st1.samples (row.freezer, row.rack, row.box, row.well) = [] := by
          intro row hr hm
          refine ⟨csvLoop_success_blank f rk b df ⟨st, [], [], []⟩ herr row hr hm, ?_⟩
          rw [hsamps, ← hacc]
          exact csvLoop_post f rk b df ⟨st, [], [], []⟩ hU herr row hr hm
        unfold process_uploaded_csv
        rw [if_pos hval1, csvLoop_noop f rk b df ⟨st1, [], [], []⟩ hpre]
        rfl
  · rw [if_neg hval] at h1
    rw [Prod.mk.injEq] at h1
    exact absurd h1.2 (by simp)

theorem C7_bulk_reconciliation_idempotent_witness :
    UniqueWells stW.samples ∧
    ∃ st1 c, process_uploaded_csv stW actorW "F1" "R1" "A1" dfDel = (st1, some c) ∧
      process_uploaded_csv st1 actorW "F1" "R1" "A1" dfDel = (st1, some ⟨0, 0, 0⟩) := by
  have hU : UniqueWells stW.samples := by unfold UniqueWells; decide
  obtain ⟨st1, c, h1⟩ :
      ∃ st1 c, process_uploaded_csv stW actorW "F1" "R1" "A1" dfDel =
        (st1, some c) := ⟨_, _, rfl⟩
  exact ⟨hU, st1, c, h1,
    C7_bulk_reconciliation_idempotent stW st1 actorW "F1" "R1" "A1" dfDel c hU h1⟩

/-! ### Claim C10 (corrected) -/

/-- Claim C10, counterexample: the claim's second universal says that for
ANY submitted value containing tag/quote/semicolon characters the
operation still succeeds, storing the modified value.  Submitting a new
sample whose name is just an HTML tag refutes it: sanitize_input runs
BEFORE validation (sample.py lines 176-190) and reduces the name to the
empty string, so validation rejects the save and nothing is stored. -/
theorem C10_counterexample :
    inpTag.sample_name = "<b>" ∧ sanitize_input inpTag.sample_name = "" ∧
    save_sample stW boxW none inpTag =
      (stW, some "Validation error: sample name empty") :=
  ⟨rfl, rfl, rfl⟩

/-- Claim C10, amended: sanitize_input removes angle-bracket-delimited
substrings, quotes, double quotes and semicolons and strips surrounding
whitespace; the single-sample save passes every submitted field through it
before validating, and a value sanitized to an invalid form (a name reduced
to empty) fails the save rather than succeeding.  In the code as written no
single-sample save persists anything at all (the store is returned
unchanged on every input), and in the bulk loop — which sanitizes only the
ten data columns and not well/freezer/rack/box — any in-box row with a
non-blank name errors out, so no sanitized bulk value is persisted
either. -/
theorem C10_sanitization :
    (∀ x : String, (sanitize_input x).toList.all
        (fun c => !(c = '\'' || c = '"' || c = ';')) = true)
    ∧ sanitize_input " <b>hi</b>; " = "hi"
    ∧ sanitize_input (String.mk [' ', 'O', '\'', 'B', 'r', 'i', 'e', 'n', ' ']) = "OBrien"
    ∧ (∀ st selBox ex inp, (save_sample st selBox ex inp).1 = st)
    ∧ (∀ st selBox inp, sanitize_input inp.sample_name = "" →
        ∃ e, save_sample st selBox none inp =
          (st, some ("Validation error: " ++ e)))
    ∧ (∀ f rk b acc row, row.freezer = f ∧ row.rack = rk ∧ row.box = b →
        blankName row = false →
        ∃ e, csvRowStep f rk b acc row = Except.error e)
    ∧ (∀ row : CsvRow, (sanitizeRow row).well = row.well ∧
        (sanitizeRow row).freezer = row.freezer ∧
        (sanitizeRow row).rack = row.rack ∧
        (sanitizeRow row).box = row.box ∧
        (sanitizeRow row).sample_name = sanitize_input row.sample_name ∧
        (sanitizeRow row).owner = sanitize_input row.owner) := by
  refine ⟨?_, rfl, rfl, save_sample_fst, ?_, ?_, ?_⟩
  · intro x
    unfold sanitize_input pyStrip
    generalize removeTags x.toList = l
    rw [List.all_eq_true]
    intro c hc
    have hmem : c ∈ removeSqlChars l := by
      have h1 : c ∈ (((String.mk (removeSqlChars l)).toList.dropWhile
          pyIsSpace).reverse.dropWhile pyIsSpace).reverse := hc
      have h2 := List.mem_reverse.mp h1
      have h3 := (List.dropWhile_sublist pyIsSpace).subset h2
      have h4 := List.mem_reverse.mp h3
      exact (List.dropWhile_sublist pyIsSpace).subset h4
    exact (List.mem_filter.mp hmem).2
  · intro st selBox inp hname
    unfold save_sample
    dsimp only
    simp only [Option.map_none']
    cases hv : validate_sample_form st selBox.freezer_name selBox.rack_id
        selBox.id (sanitizeInp inp).well (sanitizeInp inp).sample_name
        (sanitizeInp inp).sample_type none with
    | error e => exact ⟨e, rfl⟩
    | ok u =>
      exfalso
      cases u
      exact validateOkName hv hname
  · intro f rk b acc row hm hbl
    unfold csvRowStep
    rw [if_pos hm]
    dsimp only
    rw [if_neg (by rw [hbl]; exact Bool.false_ne_true)]
    cases hex : List.find? (fun s =>
        decide (s.freezer = row.freezer) && decide (s.rack = row.rack)
          && decide (s.box = row.box) && decide (s.well = row.well))
        acc.store.samples with
    | some ex => exact ⟨_, rfl⟩
    | none => exact ⟨_, rfl⟩
  · intro row
    exact ⟨rfl, rfl, rfl, rfl, rfl, rfl⟩

theorem C10_sanitization_witness :
    sanitize_input inpTag.sample_name = "" ∧
    (∃ e, save_sample stW boxW none inpTag =
      (stW, some ("Validation error: " ++ e))) ∧
    blankName rowS2 = false ∧
    (∃ e, csvRowStep "F1" "R1" "A1" ⟨stW, [], [], []⟩ rowS2 = Except.error e) := by
  refine ⟨rfl, ?_, rfl, ?_⟩
  · exact C10_sanitization.2.2.2.2.1 stW boxW inpTag rfl
  · exact C10_sanitization.2.2.2.2.2.1 "F1" "R1" "A1" ⟨stW, [], [], []⟩ rowS2
      ⟨rfl, rfl, rfl⟩ rfl

